import Mathlib

/-!
# Verification of the promoter-demo-generator CLI core

A shallow embedding, in Lean 4, of the commit-generation, build-scheduling
and manifest-version-bump logic of the `promoter-demo-generator` CLI
(Go sources: `cmd/main.go` and two sibling snapshots of the same program;
the snapshot with the named arrival patterns and the `skipGitOperations`
flag is the most recent and is the one embedded here).

Conventions used throughout:
* Go `time.Duration` (an `int64` count of nanoseconds) is embedded as `Int`;
  64-bit overflow is not modelled (no input considered here comes near it).
* `rand.Intn n` / `rand.Int63n n` draws are supplied as an explicit argument
  (a `Fin n`, or a natural number reduced modulo the range), covering every
  value the generator can produce.
* Effectful steps (file IO, YAML, git) are embedded by threading the file
  state explicitly and taking the outcome of each external step as an
  oracle argument.
-/

namespace PromoterDemo

/-! ## Maximal digit runs and the version-bump rewrite

`bumpManifestVersion` extracts the annotation `commonAnnotations["version"]`,
finds all maximal digit runs with the regex `\d+`, takes the last run,
parses it with `strconv.Atoi`, and rewrites the string with
`ReplaceAllStringFunc`, mapping every run that equals the last run (as a
string) to the incremented number and leaving everything else unchanged. -/

/-- Is this token a digit run?  A token produced by `tokenize` is a nonempty
run of characters of one class, so testing its first character suffices. -/
def isDigitTok : List Char → Bool
  | [] => false
  | c :: _ => c.isDigit

/-- Split a character list into maximal runs of digits and non-digits, in
order.  The digit runs are exactly the matches of the Go regex `\d+`, and
the non-digit runs are the text between matches. -/
def tokenize : List Char → List (List Char)
  | [] => []
  | c :: cs =>
    match tokenize cs with
    | [] => [[c]]
    | t :: ts =>
      match t with
      | [] => [c] :: t :: ts
      | d :: _ => if c.isDigit == d.isDigit then (c :: t) :: ts else [c] :: t :: ts

/-- Decimal value of a digit run (`strconv.Atoi` on a digits-only string;
the Go code ignores `Atoi`'s error, and 64-bit overflow is not modelled). -/
def natOfDigitsAux : List Char → Nat → Nat
  | [], acc => acc
  | c :: cs, acc => natOfDigitsAux cs (acc * 10 + (c.toNat - 48))

/-- Value of `strconv.Atoi` on a digit run. -/
def natOfDigits (cs : List Char) : Nat := natOfDigitsAux cs 0

/-- The decimal digit character for `n < 10`. -/
def digitChar (n : Nat) : Char := Char.ofNat (48 + n)

/-- Decimal digits of `n`, most significant first (`strconv.Itoa` for
nonnegative values), with fuel for termination. -/
def natToDigitsAux : Nat → Nat → List Char → List Char
  | 0, _, acc => acc
  | fuel + 1, n, acc =>
    if n < 10 then digitChar n :: acc
    else natToDigitsAux fuel (n / 10) (digitChar (n % 10) :: acc)

/-- Decimal rendering `strconv.Itoa n` as a character list. -/
def natToDigits (n : Nat) : List Char := natToDigitsAux (n + 1) n []

/-- The function passed to `ReplaceAllStringFunc`: a digit-run match equal
to the last run becomes the incremented number, any other match is kept;
non-match text (non-digit tokens) is untouched by the regex replacement. -/
def substTok (last new t : List Char) : List Char :=
  if isDigitTok t then (if t = last then new else t) else t

/-- The version-string rewrite inside `bumpManifestVersion`: find all digit
runs, take the last, increment its `Atoi` value, and replace via
`ReplaceAllStringFunc` every digit run equal (as a string) to the last one.
Returns `none` when the string has no digit run
("no version number found"). -/
def bumpVersionString (s : String) : Option String :=
  let toks := tokenize s.data
  match (toks.filter isDigitTok).getLast? with
  | none => none
  | some last =>
    let newDigits := natToDigits (natOfDigits last + 1)
    some (String.mk ((toks.map (substTok last newDigits)).flatten))

/-- Replace the first digit token of a token list with `new`; applied to a
reversed token list this replaces the last digit run only.  This is the
spec's reading of the rewrite ("the trailing integer run is incremented by
one, and no other part of the version string changes"), kept separate from
`bumpVersionString` so the two can be compared. -/
def replaceLastDigitTokAux (new : List Char) : List (List Char) → List (List Char)
  | [] => []
  | t :: ts => if isDigitTok t then new :: ts else t :: replaceLastDigitTokAux new ts

/-- The spec's reading of the version rewrite: increment the trailing digit
run and change nothing else. -/
def bumpOnlyTrailing (s : String) : Option String :=
  let toks := tokenize s.data
  match (toks.filter isDigitTok).getLast? with
  | none => none
  | some last =>
    let newDigits := natToDigits (natOfDigits last + 1)
    some (String.mk (((replaceLastDigitTokAux newDigits toks.reverse).reverse).flatten))

/-! ## Go `time.ParseDuration`

The generator parses its rate specification with the Go standard library's
`time.ParseDuration` (grammar `[-+]?([0-9]*(\.[0-9]*)?[a-z]+)+`, with the
special case `"0"`).  Embedded below over `Int` nanoseconds; fractional
parts use exact integer arithmetic in place of Go's `float64` rounding,
and 64-bit overflow is not modelled — neither affects the inputs the
claims are about. -/

/-- The unit suffixes `time.ParseDuration` accepts, with their value in
nanoseconds (`µs` is U+00B5, `μs` is U+03BC, both microseconds). -/
def durationUnitMap : List (List Char × Int) :=
  [("ns".data, 1), ("us".data, 1000), ("µs".data, 1000), ("μs".data, 1000),
   ("ms".data, 1000000), ("s".data, 1000000000), ("m".data, 60000000000),
   ("h".data, 3600000000000)]

/-- Go `leadingInt`: consume a leading run of decimal digits, returning the
value, the number of digits consumed, and the rest. -/
def leadingIntAux : List Char → Nat → Nat → Nat × Nat × List Char
  | [], v, n => (v, n, [])
  | c :: cs, v, n =>
    if c.isDigit then leadingIntAux cs (v * 10 + (c.toNat - 48)) (n + 1)
    else (v, n, c :: cs)

/-- Go `leadingFraction`: consume the digits after a decimal point, returning
the fraction value, its scale (a power of ten), the number of digits
consumed, and the rest. -/
def leadingFractionAux : List Char → Nat → Nat → Nat → Nat × Nat × Nat × List Char
  | [], f, scale, n => (f, scale, n, [])
  | c :: cs, f, scale, n =>
    if c.isDigit then leadingFractionAux cs (f * 10 + (c.toNat - 48)) (scale * 10) (n + 1)
    else (f, scale, n, c :: cs)

/-- Consume a unit suffix: the run of characters up to the next digit or
decimal point. -/
def takeUnitAux : List Char → List Char × List Char
  | [] => ([], [])
  | c :: cs =>
    if c = '.' ∨ c.isDigit then ([], c :: cs)
    else
      let p := takeUnitAux cs
      (c :: p.1, p.2)

/-- The `for s != "" { ... }` loop of `time.ParseDuration`: each iteration
reads digits, an optional fraction and a unit, and adds the contribution.
Fuel bounds the recursion; every continuing iteration consumes at least one
character, so `length + 1` fuel never runs out. -/
def parseDurationLoop : Nat → List Char → Option Int
  | 0, _ => none
  | _, [] => some 0
  | fuel + 1, c0 :: cs0 =>
    let pInt := leadingIntAux (c0 :: cs0) 0 0
    let v := pInt.1
    let npre := pInt.2.1
    let cs1 := pInt.2.2
    let pFrac :=
      match cs1 with
      | '.' :: rest => leadingFractionAux rest 0 1 0
      | _ => (0, 1, 0, cs1)
    let f := pFrac.1
    let scale := pFrac.2.1
    let npost := pFrac.2.2.1
    let cs2 := pFrac.2.2.2
    if npre = 0 ∧ npost = 0 then none
    else
      let pUnit := takeUnitAux cs2
      if pUnit.1 = [] then none
      else
        match List.lookup pUnit.1 durationUnitMap with
        | none => none
        | some unitVal =>
          let contrib : Int := (v : Int) * unitVal + ((f : Int) * unitVal) / (scale : Int)
          match parseDurationLoop fuel pUnit.2 with
          | none => none
          | some rest => some (contrib + rest)

/-- Go `time.ParseDuration` on a character list: optional sign, the special
case `"0"`, then the term loop.  `none` embeds a returned error. -/
def parseDurationChars (cs : List Char) : Option Int :=
  let signed : Bool × List Char :=
    match cs with
    | '-' :: rest => (true, rest)
    | '+' :: rest => (false, rest)
    | other => (false, other)
  if signed.2 = ['0'] then some 0
  else if signed.2 = [] then none
  else
    match parseDurationLoop (signed.2.length + 1) signed.2 with
    | none => none
    | some d => some (if signed.1 then -d else d)

/-- Go `time.ParseDuration` on a string. -/
def parseDuration (s : String) : Option Int := parseDurationChars s.data

/-- Go `strings.Split` for the one-character separator the code uses:
split around each occurrence of `sep` (an empty input gives one empty
part, matching Go). -/
def splitOnChar (sep : Char) : List Char → List (List Char)
  | [] => [[]]
  | c :: cs =>
    let r := splitOnChar sep cs
    if c = sep then [] :: r
    else
      match r with
      | [] => [[c]]
      | t :: ts => (c :: t) :: ts

/-- One minute in nanoseconds (Go `time.Minute`). -/
def goMinute : Int := 60000000000

/-! ## The generator's wait computation (`generateCustomPattern`) -/

/-- Outcome of one wait computation: either a wait duration to sleep for,
or a runtime panic (`rand.Int63n` is documented to panic when its argument
is not positive). -/
inductive WaitOutcome
  | wait (d : Int)
  | panicked
deriving Repr, DecidableEq

/-- The wait computation at the top of `generateCustomPattern`'s loop,
translated branch for branch: a spec containing `-` is split on `-`; with
exactly two parts that both parse, the wait is `minDur` plus a
`rand.Int63n (maxDur - minDur)` draw — which panics when the range is not
positive; any other shape falls back to a 1-minute wait (after printing a
diagnostic).  Without `-`, the spec is parsed as a fixed duration, the
fallback again being 1 minute.  `r` supplies the random draw, reduced
modulo the range. -/
def computeCustomWait (rateSpec : String) (r : Nat) : WaitOutcome :=
  if rateSpec.data.contains '-' then
    match splitOnChar '-' rateSpec.data with
    | [p0, p1] =>
      match parseDurationChars p0, parseDurationChars p1 with
      | some minDur, some maxDur =>
        let randomRange := maxDur - minDur
        if randomRange ≤ 0 then WaitOutcome.panicked
        else WaitOutcome.wait (minDur + (r : Int) % randomRange)
      | _, _ => WaitOutcome.wait goMinute
    | _ => WaitOutcome.wait goMinute
  else
    match parseDuration rateSpec with
    | some d => WaitOutcome.wait d
    | none => WaitOutcome.wait goMinute

/-! ## Named arrival patterns -/

/-- The inter-arrival wait of `generateSteadyPattern`:
`time.Duration(2+rand.Intn(4)) * time.Minute`, with the `rand.Intn 4` draw
supplied as a `Fin 4`. -/
def generateSteadyWait (r : Fin 4) : Int := ((2 + r.val : Nat) : Int) * goMinute

/-! ## Commit-id assignment (`runSimulation` seed + `sendCommit`) -/

/-- The generator's id-assignment state: the private counter `commitID` and
the ids emitted so far, oldest first. -/
structure GenState where
  nextId : Nat
  emitted : List Nat
deriving Repr, DecidableEq

/-- State after `runSimulation` has sent the synthetic seed commit (id 1)
and the generator's counter starts at 2. -/
def initialGenState : GenState := { nextId := 2, emitted := [1] }

/-- Go `sendCommit`: emit a commit carrying the current counter value, then
increment the counter.  Every named and custom pattern emits exclusively
through this helper, sharing the one counter. -/
def sendCommitStep (g : GenState) : GenState :=
  { nextId := g.nextId + 1, emitted := g.emitted ++ [g.nextId] }

/-- The id-assignment state after `k` `sendCommit` calls. -/
def genAfter : Nat → GenState
  | 0 => initialGenState
  | k + 1 => sendCommitStep (genAfter k)

/-! ## The build scheduler (`processBuildQueue` / `completeBuild`)

The scheduler's observable state, with events applied atomically in arrival
order (the serialized-control-loop semantics the design prescribes in §5 of
the spec; mid-event counter values are implementation-defined per its §3).
Commits are identified by their id. -/

/-- Scheduler-visible state: the current build (if any), the channel backlog
(queue discipline only), and the shared counters of `SimulationStats`. -/
structure SchedState where
  currentBuild : Option Nat
  pending : List Nat
  totalCommits : Nat
  queuedCommits : Int
  completedBuilds : Nat
  abortedBuilds : Nat
deriving Repr, DecidableEq

/-- The state before any commit: no build, empty channel, zeroed stats. -/
def initState : SchedState :=
  { currentBuild := none, pending := [], totalCommits := 0,
    queuedCommits := 0, completedBuilds := 0, abortedBuilds := 0 }

/-- Effect of `completeBuild` on `completedBuilds`: incremented exactly when
`bumpManifestVersion` returned no error; on error only a message is
printed. -/
def completeBuildStats (ok : Bool) (completed : Nat) : Nat :=
  if ok then completed + 1 else completed

/-- Abort discipline, arrival of commit `c`: `sendCommit` increments
`totalCommits` and `queuedCommits`; the loop then aborts the current build
if one is running (stopping its timer, incrementing `abortedBuilds`), makes
`c` the current build and sets `queuedCommits = 1` ("only current one in
queue"). -/
def handleArriveAbort (c : Nat) (s : SchedState) : SchedState :=
  let s1 := { s with totalCommits := s.totalCommits + 1,
                     queuedCommits := s.queuedCommits + 1 }
  let s2 :=
    match s1.currentBuild with
    | some _ => { s1 with abortedBuilds := s1.abortedBuilds + 1 }
    | none => s1
  { s2 with currentBuild := some c, queuedCommits := 1 }

/-- Abort discipline, the build timer fires: `completeBuild` runs (with the
collaborator outcome `ok`), then the current build is cleared and
`queuedCommits` reset to 0. -/
def handleCompleteAbort (ok : Bool) (s : SchedState) : SchedState :=
  { s with completedBuilds := completeBuildStats ok s.completedBuilds,
           currentBuild := none, queuedCommits := 0 }

/-- Queue discipline, arrival of commit `c`: `sendCommit` increments
`totalCommits` and `queuedCommits` and the commit waits in the channel;
the loop consumes it only when idle. -/
def handleArriveQueue (c : Nat) (s : SchedState) : SchedState :=
  { s with totalCommits := s.totalCommits + 1,
           queuedCommits := s.queuedCommits + 1,
           pending := s.pending ++ [c] }

/-- Queue discipline, the idle loop receives the next waiting commit: it
becomes the current build and `queuedCommits` is decremented (the item is
now in service, not waiting). -/
def handleStartQueue (s : SchedState) : SchedState :=
  match s.pending with
  | [] => s
  | c :: rest =>
    { s with currentBuild := some c, pending := rest,
             queuedCommits := s.queuedCommits - 1 }

/-- Queue discipline, the build timer fires: `completeBuild` runs, then the
current build is cleared; the channel backlog is untouched (the finished
commit is never re-queued). -/
def handleCompleteQueue (ok : Bool) (s : SchedState) : SchedState :=
  { s with completedBuilds := completeBuildStats ok s.completedBuilds,
           currentBuild := none }

/-- The abort-discipline step relation: an arrival, or a timer firing for
the in-progress build (a stopped timer never fires, so completion requires
a current build). -/
inductive AbortStep : SchedState → SchedState → Prop
  | arrive (c : Nat) (s : SchedState) : AbortStep s (handleArriveAbort c s)
  | complete (ok : Bool) (s : SchedState) (c : Nat)
      (h : s.currentBuild = some c) : AbortStep s (handleCompleteAbort ok s)

/-- The queue-discipline step relation: an arrival, the idle loop pulling
the next waiting commit, or a timer firing for the in-progress build. -/
inductive QueueStep : SchedState → SchedState → Prop
  | arrive (c : Nat) (s : SchedState) : QueueStep s (handleArriveQueue c s)
  | start (s : SchedState) (h : s.currentBuild = none) (hp : s.pending ≠ []) :
      QueueStep s (handleStartQueue s)
  | complete (ok : Bool) (s : SchedState) (c : Nat)
      (h : s.currentBuild = some c) : QueueStep s (handleCompleteQueue ok s)

/-! ## Execution contexts writing `currentBuild`

`processBuildQueue` keeps `currentBuild` (and `buildTimer`) in the control
loop's goroutine, but every `time.AfterFunc` callback it installs assigns
`currentBuild = nil` itself, from the timer's own goroutine.  The list
below transcribes, in source order, the context in which each assignment
to `currentBuild` inside `processBuildQueue` executes. -/

/-- The goroutine a statement of `processBuildQueue` runs on: the control
loop itself, or the callback passed to `time.AfterFunc` (which the Go
runtime invokes on its own goroutine when the timer fires). -/
inductive GoContext
  | controlLoop
  | timerCallback
deriving Repr, DecidableEq

/-- The assignments to the scheduler variable `currentBuild` in
`processBuildQueue`, in source order, each with its execution context:
abort mode `currentBuild = &commit` (loop), abort-mode timer callback
`currentBuild = nil`, queue mode `currentBuild = &commit` (loop),
queue-mode timer callback `currentBuild = nil`. -/
def currentBuildWriteContexts : List GoContext :=
  [GoContext.controlLoop, GoContext.timerCallback,
   GoContext.controlLoop, GoContext.timerCallback]

/-! ## `bumpManifestVersion` as a run over the manifest file

The file state (`none` when unreadable) is threaded explicitly; YAML
parsing and marshalling are oracles (`parseYaml` yields the
`commonAnnotations` version field of a parse-able content, `marshalYaml`
the serialized manifest for the bumped version); `writeOk`, `skipGit` and
`gitOk` are the outcomes of `os.WriteFile` and `gitCommitAndPush`. -/

/-- The error kinds `bumpManifestVersion` can return, one per `return fmt.Errorf` site. -/
inductive BumpError
  | readFailed
  | parseFailed
  | noVersionNumber
  | marshalFailed
  | writeFailed
deriving Repr, DecidableEq

/-- One run of `bumpManifestVersion`: read, parse, bump the version string,
marshal, write, then optionally git-commit-and-push.  Returns the file
state after the run, the function's result, and whether the "Git operations
failed" warning was printed (the code logs that failure and deliberately
does not propagate it).  A failed `os.WriteFile` may leave the file in any
state (it can truncate or partially write), so that state is a further
oracle `writeFail`. -/
def bumpManifestVersionRun (file : Option String)
    (parseYaml : String → Option String) (marshalYaml : String → Option String)
    (writeOk : Bool) (writeFail : Option String) (skipGit gitOk : Bool) :
    Option String × Except BumpError Unit × Bool :=
  match file with
  | none => (none, Except.error BumpError.readFailed, false)
  | some content =>
    match parseYaml content with
    | none => (some content, Except.error BumpError.parseFailed, false)
    | some currentVersion =>
      match bumpVersionString currentVersion with
      | none => (some content, Except.error BumpError.noVersionNumber, false)
      | some newVersion =>
        match marshalYaml newVersion with
        | none => (some content, Except.error BumpError.marshalFailed, false)
        | some updated =>
          if writeOk then
            (some updated, Except.ok (), !skipGit && !gitOk)
          else (writeFail, Except.error BumpError.writeFailed, false)

/-- A concrete mid-run scheduler state used to instantiate theorems about
build completion: commit 7 is building and commit 5 waits in the channel. -/
def midRunState : SchedState :=
  { currentBuild := some 7, pending := [5], totalCommits := 2,
    queuedCommits := 1, completedBuilds := 0, abortedBuilds := 0 }

end PromoterDemo

namespace PromoterDemo

/-! ## Sanity evaluations of the embedded functions -/

theorem bumpVersionString_example : bumpVersionString "v1.0.231" = some "v1.0.232" := by
  decide

theorem bumpVersionString_no_digits : bumpVersionString "vX" = none := by
  decide

theorem parseDuration_minutes :
    parseDuration "1m" = some 60000000000 ∧ parseDuration "2m" = some 120000000000 ∧
    parseDuration "1.5s" = some 1500000000 ∧ parseDuration "" = none ∧
    parseDuration "steady" = none := by
  refine ⟨by decide, by decide, by decide, by decide, by decide⟩

theorem computeCustomWait_range_example :
    computeCustomWait "1m-5m" 7 = WaitOutcome.wait (60000000000 + 7) := by
  decide

theorem computeCustomWait_fallback_examples :
    computeCustomWait "bogus" 0 = WaitOutcome.wait goMinute ∧
    computeCustomWait "1m-2m-3m" 0 = WaitOutcome.wait goMinute := by
  exact ⟨by decide, by decide⟩

/-! ## Projection lemmas for the scheduler handlers -/

theorem handleArriveAbort_currentBuild (c : Nat) (s : SchedState) :
    (handleArriveAbort c s).currentBuild = some c := rfl

theorem handleArriveAbort_queued (c : Nat) (s : SchedState) :
    (handleArriveAbort c s).queuedCommits = 1 := rfl

theorem handleCompleteAbort_currentBuild (ok : Bool) (s : SchedState) :
    (handleCompleteAbort ok s).currentBuild = none := rfl

theorem handleCompleteAbort_queued (ok : Bool) (s : SchedState) :
    (handleCompleteAbort ok s).queuedCommits = 0 := rfl

theorem handleStartQueue_aborted (s : SchedState) :
    (handleStartQueue s).abortedBuilds = s.abortedBuilds := by
  unfold handleStartQueue
  split <;> rfl

/-! ## C3: which goroutine writes `currentBuild` -/

/-- C3: the claim says all scheduler-state transitions are serialized
through the single control loop, with only that loop writing
`currentBuild`/timer state.  In the source, both `time.AfterFunc`
callbacks installed by `processBuildQueue` themselves assign
`currentBuild = nil` when the timer fires, on the timer's goroutine: a
write site outside the control loop exists, so not every write of
`currentBuild` is the control loop's. -/
theorem C3_timer_callback_writes_currentBuild :
    GoContext.timerCallback ∈ currentBuildWriteContexts ∧
    ¬(∀ ctx ∈ currentBuildWriteContexts, ctx = GoContext.controlLoop) := by
  decide

/-! ## C4: abort discipline keeps `queuedCommits` at 1 iff building -/

/-- C4: in the abort discipline, every state reachable from the initial
state by serialized arrival and timer-firing events has
`queuedCommits = 1` exactly while a build is active and `queuedCommits = 0`
exactly while the build resource is idle.  (Events are applied atomically,
per the design's serialized control loop; the spec's §3 makes mid-event
counter values implementation-defined.) -/
theorem C4_abort_queuedCommits_invariant (s : SchedState)
    (h : Relation.ReflTransGen AbortStep initState s) :
    (s.currentBuild.isSome → s.queuedCommits = 1) ∧
    (s.currentBuild = none → s.queuedCommits = 0) := by
  induction h with
  | refl => exact ⟨by simp [initState], fun _ => rfl⟩
  | tail _ step _ =>
    cases step with
    | arrive c t => exact ⟨fun _ => rfl, fun hnone => Option.noConfusion hnone⟩
    | complete ok t c hc => exact ⟨fun hs => Bool.noConfusion hs, fun _ => rfl⟩

/-- Witness for C4 at a concrete reachable state: after the arrival of
commit 1 from the initial state, a build is active and
`queuedCommits = 1`. -/
theorem C4_abort_queuedCommits_invariant_witness :
    ((handleArriveAbort 1 initState).currentBuild.isSome →
      (handleArriveAbort 1 initState).queuedCommits = 1) ∧
    ((handleArriveAbort 1 initState).currentBuild = none →
      (handleArriveAbort 1 initState).queuedCommits = 0) :=
  C4_abort_queuedCommits_invariant (handleArriveAbort 1 initState)
    (Relation.ReflTransGen.single (AbortStep.arrive 1 initState))

/-! ## C5: queue discipline never aborts -/

/-- C5: in the queue discipline, `abortedBuilds` is 0 in every state
reachable from the initial state: no sequence of arrivals, build starts and
completions ever aborts a build. -/
theorem C5_queue_never_aborts (s : SchedState)
    (h : Relation.ReflTransGen QueueStep initState s) :
    s.abortedBuilds = 0 := by
  induction h with
  | refl => rfl
  | tail _ step ih =>
    cases step with
    | arrive c t => exact ih
    | start t ht hp => rw [handleStartQueue_aborted]; exact ih
    | complete ok t c hc => exact ih

/-- Witness for C5 at a concrete reachable state: arrival of commit 3, its
build starting, and its completion leave `abortedBuilds = 0`. -/
theorem C5_queue_never_aborts_witness :
    (handleCompleteQueue true (handleStartQueue (handleArriveQueue 3 initState))).abortedBuilds = 0 :=
  C5_queue_never_aborts _
    (((Relation.ReflTransGen.single (QueueStep.arrive 3 initState)).tail
        (QueueStep.start _ rfl (by decide))).tail
      (QueueStep.complete true _ 3 rfl))

/-! ## C6: completion bookkeeping, and progress after a failed collaborator -/

/-- C6: when the build of commit `c` completes, `completedBuilds` is
incremented exactly when the manifest bump succeeded; either way the
commit is not put back in the channel (`pending` unchanged), the resource
returns to idle, and — backlog permitting — the next build can start at
once. -/
theorem C6_completion_outcome (s : SchedState) (c : Nat) (ok : Bool)
    (h : s.currentBuild = some c) :
    ((handleCompleteQueue ok s).completedBuilds = s.completedBuilds + 1 ↔ ok = true) ∧
    ((handleCompleteQueue ok s).completedBuilds = s.completedBuilds ↔ ok = false) ∧
    (handleCompleteQueue ok s).currentBuild = none ∧
    (handleCompleteQueue ok s).pending = s.pending ∧
    (s.pending ≠ [] →
      QueueStep (handleCompleteQueue ok s) (handleStartQueue (handleCompleteQueue ok s))) := by
  refine ⟨?_, ?_, rfl, rfl, fun hp => QueueStep.start _ rfl hp⟩
  · cases ok <;> simp [handleCompleteQueue, completeBuildStats]
  · cases ok <;> simp [handleCompleteQueue, completeBuildStats]

/-- Witness for C6: completing commit 7's build with a failed manifest bump
in `midRunState` leaves `completedBuilds` at 0, clears the current build,
keeps commit 5 queued, and the next build is ready to start. -/
theorem C6_completion_outcome_witness :
    ((handleCompleteQueue false midRunState).completedBuilds = midRunState.completedBuilds + 1 ↔ false = true) ∧
    ((handleCompleteQueue false midRunState).completedBuilds = midRunState.completedBuilds ↔ false = false) ∧
    (handleCompleteQueue false midRunState).currentBuild = none ∧
    (handleCompleteQueue false midRunState).pending = midRunState.pending ∧
    (midRunState.pending ≠ [] →
      QueueStep (handleCompleteQueue false midRunState)
        (handleStartQueue (handleCompleteQueue false midRunState))) :=
  C6_completion_outcome midRunState 7 false rfl

/-! ## C7: a publishing failure never fails the version bump -/

/-- C7: once the manifest is read, parsed, bumped, marshalled and written
successfully, `bumpManifestVersion` returns success for every outcome of
the git commit-and-push step — in particular when it fails. -/
theorem C7_bump_success_despite_git_failure (file : Option String)
    (parseYaml marshalYaml : String → Option String)
    (writeFail : Option String) (skipGit gitOk : Bool)
    (content currentVersion newVersion updated : String)
    (h1 : file = some content) (h2 : parseYaml content = some currentVersion)
    (h3 : bumpVersionString currentVersion = some newVersion)
    (h4 : marshalYaml newVersion = some updated) :
    (bumpManifestVersionRun file parseYaml marshalYaml true writeFail skipGit gitOk).2.1 =
      Except.ok () := by
  subst h1
  simp [bumpManifestVersionRun, h2, h3, h4]

/-- Witness for C7: a successful read/parse/bump/marshal/write with a
failing (non-skipped) git step still returns success. -/
theorem C7_bump_success_despite_git_failure_witness :
    (bumpManifestVersionRun (some "k") (fun _ => some "v1") (fun _ => some "out")
      true none false false).2.1 = Except.ok () :=
  C7_bump_success_despite_git_failure (some "k") (fun _ => some "v1")
    (fun _ => some "out") none false false "k" "v1" "v2" "out" rfl rfl (by decide) rfl

/-! ## C8: the steady pattern's inter-arrival wait -/

/-- C8 (amended): the steady pattern's wait is a whole number of minutes
drawn from {2, 3, 4, 5} — within [2min, 5min] inclusive, not [2min, 5min). -/
theorem C8_steady_wait_bounds (r : Fin 4) :
    (2 * goMinute ≤ generateSteadyWait r ∧ generateSteadyWait r ≤ 5 * goMinute) ∧
    (generateSteadyWait r = 2 * goMinute ∨ generateSteadyWait r = 3 * goMinute ∨
     generateSteadyWait r = 4 * goMinute ∨ generateSteadyWait r = 5 * goMinute) := by
  fin_cases r <;> exact ⟨⟨by decide, by decide⟩, by decide⟩

/-- C8 counterexample: the draw `rand.Intn 4 = 3` gives a 5-minute wait,
which does not lie in the half-open interval [2min, 5min). -/
theorem C8_steady_wait_five_minutes :
    generateSteadyWait 3 = 5 * goMinute ∧ ¬generateSteadyWait 3 < 5 * goMinute :=
  ⟨by decide, by decide⟩

/-! ## C9: commit ids are 1, 2, 3, … with no reuse and no gap -/

/-- C9: after any number `k` of generator emissions, the ids emitted so far
are exactly `1, 2, …, k+1` (the synthetic seed took id 1 and the
generator's private counter hands out 2, 3, … in order): strictly
increasing, duplicate-free, starting at 1, with no id skipped. -/
theorem C9_commit_ids_consecutive (k : Nat) :
    (genAfter k).emitted = List.range' 1 (k + 1) ∧
    (genAfter k).emitted.Pairwise (· < ·) ∧
    (genAfter k).emitted.Nodup ∧
    (genAfter k).emitted.head? = some 1 := by
  have main : ∀ n : Nat,
      (genAfter n).emitted = List.range' 1 (n + 1) ∧ (genAfter n).nextId = n + 2 := by
    intro n
    induction n with
    | zero => exact ⟨rfl, rfl⟩
    | succ m ih =>
      refine ⟨?_, ?_⟩
      · show (genAfter m).emitted ++ [(genAfter m).nextId] = List.range' 1 (m + 1 + 1)
        rw [List.range'_concat, ih.1, ih.2,
          (by ring : 1 + 1 * (m + 1) = m + 2)]
      · show (genAfter m).nextId + 1 = m + 1 + 2
        rw [ih.2]
  refine ⟨(main k).1, ?_, ?_, ?_⟩
  · rw [(main k).1]; exact List.pairwise_lt_range' 1 (k + 1)
  · rw [(main k).1]; exact List.nodup_range' 1 (k + 1)
  · rw [(main k).1]; rfl

/-! ## C10: no error path before the write touches the file -/

/-- C10: whenever `bumpManifestVersion` returns an error raised before the
write step (read, parse, no-digits or marshal failure), the manifest file
is exactly what it was before the call. -/
theorem C10_no_write_before_error (file : Option String)
    (parseYaml marshalYaml : String → Option String)
    (writeOk : Bool) (writeFail : Option String) (skipGit gitOk : Bool)
    (e : BumpError) (he : e ≠ BumpError.writeFailed)
    (h : (bumpManifestVersionRun file parseYaml marshalYaml writeOk writeFail
      skipGit gitOk).2.1 = Except.error e) :
    (bumpManifestVersionRun file parseYaml marshalYaml writeOk writeFail
      skipGit gitOk).1 = file := by
  cases file with
  | none => rfl
  | some content =>
    simp only [bumpManifestVersionRun] at h ⊢
    cases hp : parseYaml content with
    | none => simp [hp]
    | some v =>
      simp only [hp] at h ⊢
      cases hb : bumpVersionString v with
      | none => simp [hb]
      | some nv =>
        simp only [hb] at h ⊢
        cases hm : marshalYaml nv with
        | none => simp [hm]
        | some upd =>
          simp only [hm] at h ⊢
          cases writeOk with
          | true => simp at h
          | false => simp at h; exact absurd h.symm he

/-- Witness for C10: a manifest whose version annotation has no digits
makes the call fail with `noVersionNumber` and leaves the file unchanged. -/
theorem C10_no_write_before_error_witness :
    (bumpManifestVersionRun (some "m") (fun _ => some "vX") (fun _ => some "out")
      true none false false).1 = some "m" :=
  C10_no_write_before_error (some "m") (fun _ => some "vX") (fun _ => some "out")
    true none false false BumpError.noVersionNumber (by decide) rfl

/-! ## C1: the version-bump rewrite -/

/-- When no digit token of `ts` equals `last`, the `ReplaceAllStringFunc`
pass leaves every token unchanged. -/
theorem map_substTok_of_count_zero (last new : List Char) (ts : List (List Char))
    (h : ((ts.filter isDigitTok).count last) = 0) :
    ts.map (substTok last new) = ts := by
  induction ts with
  | nil => rfl
  | cons t ts ih =>
    cases hd : isDigitTok t with
    | false =>
      rw [List.filter_cons_of_neg (by simp [hd])] at h
      show substTok last new t :: ts.map (substTok last new) = t :: ts
      rw [ih h]
      simp [substTok, hd]
    | true =>
      rw [List.filter_cons_of_pos hd, List.count_cons] at h
      have htne : ¬t = last := by
        intro hEq
        rw [if_pos (by simp [hEq])] at h
        omega
      have hz : (ts.filter isDigitTok).count last = 0 := by
        rw [if_neg (by simp [htne])] at h
        omega
      show substTok last new t :: ts.map (substTok last new) = t :: ts
      rw [ih hz]
      simp [substTok, hd, htne]

/-- When `last` is the first digit token of `ts` and occurs exactly once
among its digit tokens, replacing every digit token equal to `last`
coincides with replacing just the first digit token. -/
theorem map_substTok_eq_replaceFirst (last new : List Char) (ts : List (List Char))
    (hhead : (ts.filter isDigitTok).head? = some last)
    (hcount : (ts.filter isDigitTok).count last = 1) :
    ts.map (substTok last new) = replaceLastDigitTokAux new ts := by
  induction ts with
  | nil => simp at hhead
  | cons t ts ih =>
    cases hd : isDigitTok t with
    | false =>
      rw [List.filter_cons_of_neg (by simp [hd])] at hhead hcount
      show substTok last new t :: ts.map (substTok last new) =
        replaceLastDigitTokAux new (t :: ts)
      rw [ih hhead hcount]
      simp [substTok, replaceLastDigitTokAux, hd]
    | true =>
      rw [List.filter_cons_of_pos hd] at hhead hcount
      have ht : t = last := by simpa using hhead
      rw [List.count_cons, if_pos (by simp [ht])] at hcount
      have hz : (ts.filter isDigitTok).count last = 0 := by omega
      have hd' : isDigitTok last = true := ht ▸ hd
      show substTok last new t :: ts.map (substTok last new) =
        replaceLastDigitTokAux new (t :: ts)
      rw [map_substTok_of_count_zero last new ts hz]
      simp [substTok, replaceLastDigitTokAux, ht, hd']

/-- C1 (amended): `bumpManifestVersion`'s rewrite replaces every maximal
digit run whose text equals the trailing run's text with the incremented
value; only when the trailing run's text occurs exactly once among the
digit runs does it coincide with the claim's "increment the trailing run
and change nothing else" (`bumpOnlyTrailing`). -/
theorem C1_bump_equals_trailing_of_unique (s : String) (last : List Char)
    (hlast : ((tokenize s.data).filter isDigitTok).getLast? = some last)
    (huniq : ((tokenize s.data).filter isDigitTok).count last = 1) :
    bumpVersionString s = bumpOnlyTrailing s := by
  have hrevhead : (((tokenize s.data).reverse).filter isDigitTok).head? = some last := by
    rw [List.filter_reverse, List.head?_reverse]
    exact hlast
  have hrevcount : (((tokenize s.data).reverse).filter isDigitTok).count last = 1 := by
    rw [List.filter_reverse, List.count_reverse]
    exact huniq
  have key := map_substTok_eq_replaceFirst last
    (natToDigits (natOfDigits last + 1)) ((tokenize s.data).reverse) hrevhead hrevcount
  have key2 : (tokenize s.data).map (substTok last (natToDigits (natOfDigits last + 1))) =
      (replaceLastDigitTokAux (natToDigits (natOfDigits last + 1))
        ((tokenize s.data).reverse)).reverse := by
    rw [← key, List.map_reverse, List.reverse_reverse]
  simp only [bumpVersionString, bumpOnlyTrailing, hlast]
  rw [key2]

/-- Witness for C1 at the claim's own example `"v1.0.231"`: the trailing
run `231` is unique among the digit runs, and the rewrite increments
exactly it. -/
theorem C1_bump_equals_trailing_of_unique_witness :
    ((tokenize "v1.0.231".data).filter isDigitTok).getLast? = some ['2', '3', '1'] ∧
    ((tokenize "v1.0.231".data).filter isDigitTok).count ['2', '3', '1'] = 1 ∧
    bumpVersionString "v1.0.231" = bumpOnlyTrailing "v1.0.231" :=
  ⟨by decide, by decide,
    C1_bump_equals_trailing_of_unique "v1.0.231" ['2', '3', '1'] (by decide) (by decide)⟩

/-- C1 counterexample: on `"v1.0.1"` the trailing run's text `1` also
occurs as the first run, so the rewrite produces `"v2.0.2"` — not the
`"v1.0.2"` the claim ("no other part of the version string changes")
requires. -/
theorem C1_duplicate_run_counterexample :
    bumpVersionString "v1.0.1" = some "v2.0.2" ∧
    bumpOnlyTrailing "v1.0.1" = some "v1.0.2" ∧
    bumpVersionString "v1.0.1" ≠ bumpOnlyTrailing "v1.0.1" :=
  ⟨by decide, by decide, by decide⟩

/-! ## C2: the wait computation and its panic -/

/-- Go `strings.Split` on a separator the string does not contain returns the
whole string as its only part. -/
theorem splitOnChar_eq_single (sep : Char) (cs : List Char)
    (h : cs.contains sep = false) : splitOnChar sep cs = [cs] := by
  induction cs with
  | nil => rfl
  | cons c cs ih =>
    rw [List.contains_cons] at h
    simp only [Bool.or_eq_false_iff] at h
    have hc : ¬c = sep := by
      intro hEq
      simp [hEq] at h
    unfold splitOnChar
    rw [ih h.2]
    simp [hc]

/-- C2 (amended): the wait computation of `generateCustomPattern` panics
exactly when the spec is a well-formed range `"<min>-<max>"` (splits on
`-` into two parts that both parse as durations) whose maximum is at most
its minimum — then `rand.Int63n` receives a non-positive argument.  Every
other input yields a wait; in particular a spec without `-` that fails to
parse falls back to the 1-minute wait. -/
theorem C2_wait_panics_iff_degenerate_range (rateSpec : String) (r : Nat) :
    (computeCustomWait rateSpec r = WaitOutcome.panicked ↔
      ∃ p0 p1 minDur maxDur,
        splitOnChar '-' rateSpec.data = [p0, p1] ∧
        parseDurationChars p0 = some minDur ∧
        parseDurationChars p1 = some maxDur ∧ maxDur ≤ minDur) ∧
    (parseDuration rateSpec = none → rateSpec.data.contains '-' = false →
      computeCustomWait rateSpec r = WaitOutcome.wait goMinute) := by
  constructor
  · unfold computeCustomWait
    cases hc : rateSpec.data.contains '-' with
    | false =>
      have hone := splitOnChar_eq_single '-' rateSpec.data hc
      rw [if_neg Bool.false_ne_true]
      constructor
      · intro hEq
        cases hpd : parseDuration rateSpec with
        | none => rw [hpd] at hEq; exact WaitOutcome.noConfusion hEq
        | some d => rw [hpd] at hEq; exact WaitOutcome.noConfusion hEq
      · rintro ⟨p0, p1, minDur, maxDur, hps, -, -, -⟩
        rw [hone] at hps
        simp at hps
    | true =>
      rw [if_pos rfl]
      cases hs : splitOnChar '-' rateSpec.data with
      | nil =>
        exact ⟨fun hEq => WaitOutcome.noConfusion hEq,
          fun ⟨p0, p1, minDur, maxDur, hps, hm, hM, hle⟩ => List.noConfusion hps⟩
      | cons q qs =>
        cases qs with
        | nil =>
          refine ⟨fun hEq => WaitOutcome.noConfusion hEq, ?_⟩
          rintro ⟨p0, p1, minDur, maxDur, hps, -, -, -⟩
          simp at hps
        | cons q1 qs1 =>
          cases qs1 with
          | cons q2 qs2 =>
            refine ⟨fun hEq => WaitOutcome.noConfusion hEq, ?_⟩
            rintro ⟨p0, p1, minDur, maxDur, hps, -, -, -⟩
            simp at hps
          | nil =>
            show (match parseDurationChars q, parseDurationChars q1 with
              | some minDur, some maxDur =>
                if maxDur - minDur ≤ 0 then WaitOutcome.panicked
                else WaitOutcome.wait (minDur + (r : Int) % (maxDur - minDur))
              | _, _ => WaitOutcome.wait goMinute) = WaitOutcome.panicked ↔ _
            cases hp0 : parseDurationChars q with
            | none =>
              refine ⟨fun hEq => WaitOutcome.noConfusion hEq, ?_⟩
              rintro ⟨p0, p1, minDur, maxDur, hps, hm, -, -⟩
              obtain ⟨h0, h1⟩ : q = p0 ∧ q1 = p1 := by simpa using hps
              rw [← h0, hp0] at hm
              exact Option.noConfusion hm
            | some minDur =>
              cases hp1 : parseDurationChars q1 with
              | none =>
                refine ⟨fun hEq => WaitOutcome.noConfusion hEq, ?_⟩
                rintro ⟨p0, p1, minDur', maxDur, hps, -, hM, -⟩
                obtain ⟨h0, h1⟩ : q = p0 ∧ q1 = p1 := by simpa using hps
                rw [← h1, hp1] at hM
                exact Option.noConfusion hM
              | some maxDur =>
                show (if maxDur - minDur ≤ 0 then WaitOutcome.panicked
                  else WaitOutcome.wait (minDur + (r : Int) % (maxDur - minDur))) =
                    WaitOutcome.panicked ↔ _
                by_cases hr : maxDur - minDur ≤ 0
                · rw [if_pos hr]
                  refine ⟨fun _ => ⟨q, q1, minDur, maxDur, rfl, hp0, hp1, by omega⟩,
                    fun _ => rfl⟩
                · rw [if_neg hr]
                  refine ⟨fun hEq => WaitOutcome.noConfusion hEq, ?_⟩
                  rintro ⟨p0, p1, minDur', maxDur', hps, hm, hM, hle⟩
                  obtain ⟨h0, h1⟩ : q = p0 ∧ q1 = p1 := by simpa using hps
                  rw [← h0, hp0] at hm
                  rw [← h1, hp1] at hM
                  obtain rfl : minDur = minDur' := by simpa using hm
                  obtain rfl : maxDur = maxDur' := by simpa using hM
                  omega
  · intro hp hc
    unfold computeCustomWait
    rw [hc, if_neg Bool.false_ne_true, hp]

/-- C2 counterexample: the syntactically valid range specs `"2m-1m"`
(minimum greater than maximum) and `"1m-1m"` (equal) both drive
`rand.Int63n` to a non-positive argument — a runtime panic, not the
1-minute fallback the claim promises for every input. -/
theorem C2_degenerate_range_panics :
    computeCustomWait "2m-1m" 0 = WaitOutcome.panicked ∧
    computeCustomWait "1m-1m" 0 = WaitOutcome.panicked :=
  ⟨by decide, by decide⟩

end PromoterDemo
